import Mathlib

/-!
# Verification of the onepagems schema engine

Shallow embedding of the schema-driven core of the `onepagems` repository:
the Schema Parser (`internal/schema_parser.go`), the Content Validator
(`internal/managers/schema_validator.go`, package `managers`) and the Form
Field Deriver (`internal/managers/form_generator.go`).

Modelling conventions:
* Decoded JSON values (`interface{}` holding `nil`, `bool`, `float64`,
  `string`, `[]interface{}`, `map[string]interface{}`) are the inductive
  `GoVal`.  Go maps are association lists; iteration order is list order
  (Go map iteration order is unspecified, so any fixed order is a sound
  refinement for the order-insensitive properties proved here).
* Go `float64` values originating from JSON and `strconv.ParseFloat` are
  modelled as exact rationals.  Rounding to binary floating point is not
  modelled; all concrete inputs used below are exactly representable.
* `fmt.Sprintf("%v", x)` is modelled by `displayGo`, exact for `nil`,
  booleans, strings and integer-valued numbers (the cases exercised by the
  source's uniqueItems semantics); the shortest-round-trip rendering of
  non-integral floats and the sorted-key rendering of maps are abstracted.
* The external `regexp` and `time` packages are parameters (`GoPrims`):
  `regexp.MatchString` may return an error value, which the source treats
  as data, never as a panic.
* The one real panic site in the validator (`reflect.TypeOf(content).String()`
  with `content == nil`) is modelled by returning `Except GoPanic`.
-/

/-- A decoded generic JSON value as Go's `encoding/json` produces it. -/
inductive GoVal where
  | vnull : GoVal
  | vbool : Bool → GoVal
  | vnum : ℚ → GoVal
  | vstr : String → GoVal
  | varr : List GoVal → GoVal
  | vobj : List (String × GoVal) → GoVal

/-- Go `value == nil` test on a decoded JSON value. -/
def isNullGo : GoVal → Bool
  | GoVal.vnull => true
  | _ => false

mutual
/-- `reflect.DeepEqual` on decoded JSON values: structural equality. -/
def goValEq : GoVal → GoVal → Bool
  | GoVal.vnull, GoVal.vnull => true
  | GoVal.vbool a, GoVal.vbool b => a == b
  | GoVal.vnum a, GoVal.vnum b => a == b
  | GoVal.vstr a, GoVal.vstr b => a == b
  | GoVal.varr xs, GoVal.varr ys => goValListEq xs ys
  | GoVal.vobj xs, GoVal.vobj ys => goValFieldsEq xs ys
  | _, _ => false

/-- Element-wise `reflect.DeepEqual` on slices. -/
def goValListEq : List GoVal → List GoVal → Bool
  | [], [] => true
  | x :: xs, y :: ys => goValEq x y && goValListEq xs ys
  | _, _ => false

/-- Entry-wise `reflect.DeepEqual` on maps (list order; decoded JSON maps
with identical insertion history agree entry-wise). -/
def goValFieldsEq : List (String × GoVal) → List (String × GoVal) → Bool
  | [], [] => true
  | (k, v) :: xs, (k', v') :: ys => k == k' && goValEq v v' && goValFieldsEq xs ys
  | _, _ => false
end

/-- Association-list lookup, modelling Go map indexing `m[k]`. -/
def alookup : List (String × GoVal) → String → Option GoVal
  | [], _ => none
  | (k', v) :: rest, k => if k = k' then some v else alookup rest k

/-- Go type assertion `.(string)` after a map lookup. -/
def getStr (m : List (String × GoVal)) (k : String) : Option String :=
  match alookup m k with
  | some (GoVal.vstr s) => some s
  | _ => none

/-- Go type assertion `.(float64)` after a map lookup. -/
def getNum (m : List (String × GoVal)) (k : String) : Option ℚ :=
  match alookup m k with
  | some (GoVal.vnum q) => some q
  | _ => none

/-- Go type assertion `.(bool)` after a map lookup. -/
def getBool (m : List (String × GoVal)) (k : String) : Option Bool :=
  match alookup m k with
  | some (GoVal.vbool b) => some b
  | _ => none

/-- Go type assertion `.([]interface\x7b\x7d)` after a map lookup. -/
def getArr (m : List (String × GoVal)) (k : String) : Option (List GoVal) :=
  match alookup m k with
  | some (GoVal.varr xs) => some xs
  | _ => none

/-- Go type assertion `.(map[string]interface\x7b\x7d)` after a map lookup. -/
def getObj (m : List (String × GoVal)) (k : String) : Option (List (String × GoVal)) :=
  match alookup m k with
  | some (GoVal.vobj fields) => some fields
  | _ => none

/-- Value of a nonempty digit string (caller checks digits). -/
def digitsVal (cs : List Char) : Nat :=
  cs.foldl (fun n c => n * 10 + (c.toNat - 48)) 0

/-- Splits a char list at the first char satisfying `p`; `none` when absent. -/
def splitFirst (p : Char → Bool) : List Char → List Char × Option (List Char)
  | [] => ([], none)
  | c :: cs =>
    if p c then ([], some cs)
    else
      let r := splitFirst p cs
      (c :: r.1, r.2)

/-- `strconv.ParseFloat(s, 64)` restricted to decimal syntax
(sign, digits, optional fraction, optional exponent).  The hexadecimal,
infinity/NaN and underscore forms accepted by Go, and rounding to the
nearest binary float, are outside the model; the result is the exact
decimal value. -/
def goParseFloat (s : String) : Option ℚ :=
  let cs := s.toList
  let signAndRest : ℚ × List Char :=
    match cs with
    | '+' :: t => (1, t)
    | '-' :: t => (-1, t)
    | t => (1, t)
  let sgn := signAndRest.1
  let body := signAndRest.2
  let mantAndExp := splitFirst (fun c => c = 'e' || c = 'E') body
  let mant := mantAndExp.1
  let expPart : Option (List Char) := mantAndExp.2
  let ipAndFp := splitFirst (fun c => c = '.') mant
  let ip := ipAndFp.1
  let fp : List Char := (ipAndFp.2).getD []
  if ip.all Char.isDigit ∧ fp.all Char.isDigit ∧ (fp.any (fun _ => true) ∨ ip.any (fun _ => true)) ∧
      ((ipAndFp.2).isNone → fp = []) then
    let mval : ℚ := (digitsVal (ip ++ fp) : ℚ) / ((10 : ℚ) ^ fp.length)
    match expPart with
    | none => some (sgn * mval)
    | some ecs =>
      let eSignAndRest : Int × List Char :=
        match ecs with
        | '+' :: t => (1, t)
        | '-' :: t => (-1, t)
        | t => (1, t)
      if eSignAndRest.2 ≠ [] ∧ (eSignAndRest.2).all Char.isDigit then
        some (sgn * mval * (10 : ℚ) ^ (eSignAndRest.1 * (digitsVal (eSignAndRest.2) : Int)))
      else none
  else none

/-- `strconv.Atoi` restricted to decimal syntax (optional sign, digits). -/
def goParseInt (s : String) : Option Int :=
  let cs := s.toList
  let signAndRest : Int × List Char :=
    match cs with
    | '+' :: t => (1, t)
    | '-' :: t => (-1, t)
    | t => (1, t)
  if signAndRest.2 ≠ [] ∧ (signAndRest.2).all Char.isDigit then
    some (signAndRest.1 * (digitsVal (signAndRest.2) : Int))
  else none

/-- Rendering of a JSON-decoded number by `fmt.Sprintf("%v", ·)`: exact for
integer-valued floats (printed as plain integers); Go's shortest
round-trip rendering of non-integral floats is abstracted. -/
def displayNum (q : ℚ) : String :=
  if q.den = 1 then toString q.num else toString q

mutual
/-- `fmt.Sprintf("%v", value)` on a JSON-decoded value.  Exact for `nil`,
booleans, strings, integer-valued numbers and slices thereof; Go sorts map
keys when printing, which is abstracted to list order here. -/
def displayGo : GoVal → String
  | GoVal.vnull => "<nil>"
  | GoVal.vbool b => if b then "true" else "false"
  | GoVal.vnum q => displayNum q
  | GoVal.vstr s => s
  | GoVal.varr xs => "[" ++ displayList xs ++ "]"
  | GoVal.vobj fields => "map[" ++ displayFields fields ++ "]"

/-- Space-joined element renderings of a slice, as Go prints `[]interface\x7b\x7d`. -/
def displayList : List GoVal → String
  | [] => ""
  | [x] => displayGo x
  | x :: xs => displayGo x ++ " " ++ displayList xs

/-- `k:v` space-joined renderings of a map's entries. -/
def displayFields : List (String × GoVal) → String
  | [] => ""
  | [(k, v)] => k ++ ":" ++ displayGo v
  | (k, v) :: fs => k ++ ":" ++ displayGo v ++ " " ++ displayFields fs
end

/-- Char-list test: the first list leads the second (used to model the
substring scan of `strings.Contains`). -/
def charsLeadWith : List Char → List Char → Bool
  | [], _ => true
  | _ :: _, [] => false
  | a :: as, b :: bs => a == b && charsLeadWith as bs

/-- Char-list substring test. -/
def charsHaveSub (sub : List Char) : List Char → Bool
  | [] => sub.isEmpty
  | c :: cs => charsLeadWith sub (c :: cs) || charsHaveSub sub cs

/-- `strings.Contains` (character-list implementation, so that concrete
inputs evaluate inside the kernel). -/
def goContains (s sub : String) : Bool :=
  charsHaveSub sub.toList s.toList

/-- Split of a char list on one separator character. -/
def splitOnChar (c : Char) : List Char → List (List Char)
  | [] => [[]]
  | x :: xs =>
    match splitOnChar c xs with
    | [] => [[]]
    | h :: t => if x = c then [] :: h :: t else (x :: h) :: t

/-- `strings.Split` on a one-character separator (the only shape the
source uses: `"."` and `"_"`). -/
def goSplitChar (s : String) (c : Char) : List String :=
  (splitOnChar c s.toList).map (fun l => String.mk l)

/-- `strings.Join` with a separator. -/
def joinSep (sep : String) : List String → String
  | [] => ""
  | [x] => x
  | x :: xs => x ++ sep ++ joinSep sep xs

/-- `strings.ToLower` (ASCII-faithful; the source only lowercases ASCII
keywords and schema text). -/
def goToLower (s : String) : String :=
  String.mk (s.toList.map Char.toLower)

/-- Go `int(f)` conversion of a float64: truncation toward zero.
(Conversion of values outside the int64 range is not modelled; no claim
exercises it.) -/
def ratTrunc (q : ℚ) : Int :=
  if 0 ≤ q then q.floor else -((-q).floor)

/-- `fmt.Sprintf("%.2f", q)`: two-decimal rendering.  Rounds half away
from zero; Go's exact binary-float rounding of ties is abstracted (no
claim depends on message text). -/
def goFmtF2 (q : ℚ) : String :=
  let sgn := if q < 0 then "-" else ""
  let c : Int := ((|q| * 100) + 1 / 2).floor
  let r := c % 100
  sgn ++ toString (c / 100) ++ "." ++ (if r < 10 then "0" ++ toString r else toString r)

/-- The schema document `types.SchemaData`: `$schema`, `type`, `properties`. -/
structure SchemaData where
  schemaId : String
  type : String
  properties : List (String × GoVal)

/-- `ValidationDetailError` of the validator: field, code, message,
optional offending value, optional expected value, property path. -/
structure VError where
  field : String
  code : String
  message : String
  value : Option GoVal
  expected : Option GoVal
  propertyPath : String

/-- `types.ValidationWarning`: field, code, message. -/
structure VWarning where
  field : String
  code : String
  message : String

/-- Error/warning deltas appended to a `ValidationResult` by one validation
step (the Go code mutates `result.Errors` / `result.Warnings`; appending is
the same data, made explicit). -/
abbrev Deltas := List VError × List VWarning

/-- Concatenation of two deltas, in append order. -/
def dcat (a b : Deltas) : Deltas := (a.1 ++ b.1, a.2 ++ b.2)

/-- The empty delta. -/
def dnil : Deltas := ([], [])

/-- External primitives used by the validator: `regexp.MatchString`
(pattern, input; may fail with an error message) and `time.Parse` for the
two date layouts.  They are parameters of the embedding. -/
structure GoPrims where
  regexpMatch : String → String → Except String Bool
  parseDate : String → Bool
  parseDateTime : String → Bool

/-- `matched, _ := regexp.MatchString(pat, s)`: an error leaves `matched`
false. -/
def matchBool (p : GoPrims) (pat s : String) : Bool :=
  match p.regexpMatch pat s with
  | Except.ok b => b
  | Except.error _ => false

namespace Validator

/-- `SchemaValidator.toFloat64`: numeric conversion, including parsing a
string with `strconv.ParseFloat` (JSON-decoded values carry numbers only as
float64, so the integer cases of the Go switch are unreachable here). -/
def toFloat64 : GoVal → Option ℚ
  | GoVal.vnum v => some v
  | GoVal.vstr s => goParseFloat s
  | _ => none

/-- `SchemaValidator.isNumber`: numeric values, or strings accepted by
`strconv.ParseFloat`. -/
def isNumber : GoVal → Bool
  | GoVal.vnum _ => true
  | GoVal.vstr s => (goParseFloat s).isSome
  | _ => false

/-- `SchemaValidator.isInteger`: a number whose value equals its int64
truncation, i.e. is a whole number (Go's zero value on a failed
conversion, unreachable past the `isNumber` guard, is integral). -/
def isInteger (v : GoVal) : Bool :=
  if isNumber v = false then false
  else
    match toFloat64 v with
    | some num => num.den = 1
    | none => true

/-- `SchemaValidator.validateType`: nil passes every type; otherwise a
type-assertion check per declared type, with unknown types passing. -/
def validateType (value : GoVal) (expectedType : String) : Bool :=
  if isNullGo value then true
  else
    match expectedType with
    | "string" => (match value with | GoVal.vstr _ => true | _ => false)
    | "number" => isNumber value
    | "integer" => isInteger value
    | "boolean" => (match value with | GoVal.vbool _ => true | _ => false)
    | "array" => (match value with | GoVal.varr _ => true | _ => false)
    | "object" => (match value with | GoVal.vobj _ => true | _ => false)
    | _ => true

/-- `SchemaValidator.validateStringField`: minLength / maxLength checks on
the byte length of the string. -/
def validateStringField (fieldName : String) (value : GoVal)
    (schemaProp : List (String × GoVal)) (fieldPath : String) : Deltas :=
  match value with
  | GoVal.vstr str =>
    ((match getNum schemaProp "minLength" with
      | some minLength =>
        if (str.utf8ByteSize : Int) < ratTrunc minLength then
          [⟨fieldName, "min_length",
            "Field '" ++ fieldName ++ "' must be at least " ++ toString (ratTrunc minLength) ++ " characters",
            some (GoVal.vnum (str.utf8ByteSize : ℚ)), some (GoVal.vnum ((ratTrunc minLength : Int) : ℚ)), fieldPath⟩]
        else []
      | none => []) ++
     (match getNum schemaProp "maxLength" with
      | some maxLength =>
        if (str.utf8ByteSize : Int) > ratTrunc maxLength then
          [⟨fieldName, "max_length",
            "Field '" ++ fieldName ++ "' must be at most " ++ toString (ratTrunc maxLength) ++ " characters",
            some (GoVal.vnum (str.utf8ByteSize : ℚ)), some (GoVal.vnum ((ratTrunc maxLength : Int) : ℚ)), fieldPath⟩]
        else []
      | none => []), [])
  | _ => dnil

/-- `SchemaValidator.validateNumberField`: minimum / maximum /
exclusiveMinimum / exclusiveMaximum / multipleOf checks on the converted
numeric value. -/
def validateNumberField (fieldName : String) (value : GoVal)
    (schemaProp : List (String × GoVal)) (fieldPath : String) : Deltas :=
  match toFloat64 value with
  | none => dnil
  | some num =>
    ((match getNum schemaProp "minimum" with
      | some minimum =>
        if num < minimum then
          [⟨fieldName, "minimum",
            "Field '" ++ fieldName ++ "' must be at least " ++ goFmtF2 minimum,
            some (GoVal.vnum num), some (GoVal.vnum minimum), fieldPath⟩]
        else []
      | none => []) ++
     (match getNum schemaProp "maximum" with
      | some maximum =>
        if num > maximum then
          [⟨fieldName, "maximum",
            "Field '" ++ fieldName ++ "' must be at most " ++ goFmtF2 maximum,
            some (GoVal.vnum num), some (GoVal.vnum maximum), fieldPath⟩]
        else []
      | none => []) ++
     (match getNum schemaProp "exclusiveMinimum" with
      | some exclusiveMinimum =>
        if num ≤ exclusiveMinimum then
          [⟨fieldName, "exclusive_minimum",
            "Field '" ++ fieldName ++ "' must be greater than " ++ goFmtF2 exclusiveMinimum,
            some (GoVal.vnum num), some (GoVal.vnum exclusiveMinimum), fieldPath⟩]
        else []
      | none => []) ++
     (match getNum schemaProp "exclusiveMaximum" with
      | some exclusiveMaximum =>
        if num ≥ exclusiveMaximum then
          [⟨fieldName, "exclusive_maximum",
            "Field '" ++ fieldName ++ "' must be less than " ++ goFmtF2 exclusiveMaximum,
            some (GoVal.vnum num), some (GoVal.vnum exclusiveMaximum), fieldPath⟩]
        else []
      | none => []) ++
     (match getNum schemaProp "multipleOf" with
      | some multipleOf =>
        if multipleOf > 0 ∧ (num / multipleOf).den ≠ 1 then
          [⟨fieldName, "multiple_of",
            "Field '" ++ fieldName ++ "' must be a multiple of " ++ goFmtF2 multipleOf,
            some (GoVal.vnum num), some (GoVal.vnum multipleOf), fieldPath⟩]
        else []
      | none => []), [])

/-- The `uniqueItems` scan of `validateArrayField`: render each element
with `fmt.Sprintf("%v", ·)`, remember seen renderings, return the first
element whose rendering was already seen (the loop breaks there). -/
def uniqueScan (seen : List String) : List GoVal → Option GoVal
  | [] => none
  | x :: xs =>
    let s := displayGo x
    if seen.contains s then some x else uniqueScan (s :: seen) xs

/-- `SchemaValidator.validateEnum`: `reflect.DeepEqual` against each
allowed value; an `enum` error when none matches. -/
def validateEnum (fieldName : String) (value : GoVal) (enumValues : List GoVal)
    (fieldPath : String) : Deltas :=
  if enumValues.any (fun e => goValEq value e) then dnil
  else
    ([⟨fieldName, "enum", "Field '" ++ fieldName ++ "' must be one of the allowed values",
       some value, some (GoVal.varr enumValues), fieldPath⟩], [])

/-- `SchemaValidator.isValidEmail` (fixed pattern via `regexp.MatchString`). -/
def isValidEmail (p : GoPrims) (email : String) : Bool :=
  matchBool p "^[a-zA-Z0-9._%+-]+@[a-zA-Z0-9.-]+\\.[a-zA-Z]\x7b2,\x7d$" email

/-- `SchemaValidator.isValidDate`: `time.Parse("2006-01-02", ·)` succeeds. -/
def isValidDate (p : GoPrims) (date : String) : Bool := p.parseDate date

/-- `SchemaValidator.isValidDateTime`: `time.Parse(time.RFC3339, ·)` succeeds. -/
def isValidDateTime (p : GoPrims) (datetime : String) : Bool := p.parseDateTime datetime

/-- `SchemaValidator.isValidURI` (fixed pattern via `regexp.MatchString`). -/
def isValidURI (p : GoPrims) (uri : String) : Bool :=
  matchBool p "^[a-zA-Z][a-zA-Z0-9+.-]*://[^\\s]+$" uri

/-- `SchemaValidator.isValidIPv4`: regex shape check, then each
dot-separated octet parses with `strconv.Atoi` and is at most 255. -/
def isValidIPv4 (p : GoPrims) (ip : String) : Bool :=
  if matchBool p "^(\\d\x7b1,3\x7d\\.)\x7b3\x7d\\d\x7b1,3\x7d$" ip = false then false
  else
    (goSplitChar ip '.').all fun part =>
      match goParseInt part with
      | some n => n ≤ 255
      | none => false

/-- `SchemaValidator.isValidIPv6` (fixed pattern via `regexp.MatchString`). -/
def isValidIPv6 (p : GoPrims) (ip : String) : Bool :=
  matchBool p "^([0-9a-fA-F]\x7b1,4\x7d:)\x7b7\x7d[0-9a-fA-F]\x7b1,4\x7d$|^::1$|^::$" ip

/-- `SchemaValidator.validateFormat`: the per-format error table; skipped
for non-strings and empty strings; unknown formats pass. -/
def validateFormat (p : GoPrims) (fieldName : String) (value : GoVal)
    (format : String) (fieldPath : String) : Deltas :=
  match value with
  | GoVal.vstr str =>
    if str = "" then dnil
    else
      match format with
      | "email" =>
        if isValidEmail p str then dnil
        else ([⟨fieldName, "format_email",
                "Field '" ++ fieldName ++ "' must be a valid email address",
                some (GoVal.vstr str), some (GoVal.vstr "valid email format"), fieldPath⟩], [])
      | "date" =>
        if isValidDate p str then dnil
        else ([⟨fieldName, "format_date",
                "Field '" ++ fieldName ++ "' must be a valid date (YYYY-MM-DD)",
                some (GoVal.vstr str), some (GoVal.vstr "YYYY-MM-DD format"), fieldPath⟩], [])
      | "date-time" =>
        if isValidDateTime p str then dnil
        else ([⟨fieldName, "format_datetime",
                "Field '" ++ fieldName ++ "' must be a valid date-time (RFC3339)",
                some (GoVal.vstr str), some (GoVal.vstr "RFC3339 format"), fieldPath⟩], [])
      | "uri" =>
        if isValidURI p str then dnil
        else ([⟨fieldName, "format_uri",
                "Field '" ++ fieldName ++ "' must be a valid URI",
                some (GoVal.vstr str), some (GoVal.vstr "valid URI format"), fieldPath⟩], [])
      | "ipv4" =>
        if isValidIPv4 p str then dnil
        else ([⟨fieldName, "format_ipv4",
                "Field '" ++ fieldName ++ "' must be a valid IPv4 address",
                some (GoVal.vstr str), some (GoVal.vstr "IPv4 format"), fieldPath⟩], [])
      | "ipv6" =>
        if isValidIPv6 p str then dnil
        else ([⟨fieldName, "format_ipv6",
                "Field '" ++ fieldName ++ "' must be a valid IPv6 address",
                some (GoVal.vstr str), some (GoVal.vstr "IPv6 format"), fieldPath⟩], [])
      | _ => dnil
  | _ => dnil

/-- `SchemaValidator.validatePattern`: a failed compile of the pattern is
demoted to an `invalid_pattern` warning; a non-match is a `pattern` error. -/
def validatePattern (p : GoPrims) (fieldName : String) (value : GoVal)
    (pat : String) (fieldPath : String) : Deltas :=
  match value with
  | GoVal.vstr str =>
    match p.regexpMatch pat str with
    | Except.error e =>
      ([], [⟨fieldName, "invalid_pattern",
             "Invalid regex pattern for field '" ++ fieldName ++ "': " ++ e⟩])
    | Except.ok matched =>
      if matched then dnil
      else ([⟨fieldName, "pattern", "Field '" ++ fieldName ++ "' must match the required pattern",
              some (GoVal.vstr str), some (GoVal.vstr pat), fieldPath⟩], [])
  | _ => dnil

/-- The nested required sweep of `validateNestedObject`: one `required`
error per string entry of the object's own `required` array that is absent
from the content object. -/
def requiredNestedErrs (fieldName fieldPath : String)
    (objMap : List (String × GoVal)) : List GoVal → List VError
  | [] => []
  | GoVal.vstr reqFieldName :: rest =>
    (if (alookup objMap reqFieldName).isNone then
       [⟨fieldName ++ "." ++ reqFieldName, "required",
         "Required field '" ++ fieldName ++ "." ++ reqFieldName ++ "' is missing",
         none, none, fieldPath ++ "." ++ reqFieldName⟩]
     else []) ++ requiredNestedErrs fieldName fieldPath objMap rest
  | _ :: rest => requiredNestedErrs fieldName fieldPath objMap rest

mutual
/-- `SchemaValidator.validateField`: type check first — a mismatch emits a
single `invalid_type` error and returns — then the string / number / array
/ object / enum / format / pattern checks in source order. -/
def validateField (p : GoPrims) (fieldName : String) (value : GoVal)
    (schemaProp : List (String × GoVal)) (fieldPath : String) : Deltas :=
  let fieldType := (getStr schemaProp "type").getD "string"
  if validateType value fieldType = false then
    ([⟨fieldName, "invalid_type", "Field '" ++ fieldName ++ "' must be of type " ++ fieldType,
       some value, some (GoVal.vstr fieldType), fieldPath⟩], [])
  else
    dcat (if fieldType = "string" ∧ isNullGo value = false then
            validateStringField fieldName value schemaProp fieldPath else dnil)
    (dcat (if (fieldType = "number" ∨ fieldType = "integer") ∧ isNullGo value = false then
             validateNumberField fieldName value schemaProp fieldPath else dnil)
    (dcat (if fieldType = "array" ∧ isNullGo value = false then
             validateArrayField p fieldName value schemaProp fieldPath else dnil)
    (dcat (if fieldType = "object" ∧ isNullGo value = false then
             validateNestedObject p fieldName value schemaProp fieldPath else dnil)
    (dcat (match getArr schemaProp "enum" with
           | some enumValues =>
             if enumValues.length > 0 then validateEnum fieldName value enumValues fieldPath else dnil
           | none => dnil)
    (dcat (match getStr schemaProp "format" with
           | some format =>
             if format ≠ "" then validateFormat p fieldName value format fieldPath else dnil
           | none => dnil)
          (match getStr schemaProp "pattern" with
           | some pat =>
             if pat ≠ "" then validatePattern p fieldName value pat fieldPath else dnil
           | none => dnil))))))
termination_by (sizeOf value, 1)

/-- `SchemaValidator.validateArrayField`: minItems / maxItems, the
string-rendering uniqueItems scan, then per-element validation against the
`items` schema with `field[i]` paths. -/
def validateArrayField (p : GoPrims) (fieldName : String) (value : GoVal)
    (schemaProp : List (String × GoVal)) (fieldPath : String) : Deltas :=
  match value with
  | GoVal.varr arr =>
    dcat ((match getNum schemaProp "minItems" with
           | some minItems =>
             if (arr.length : Int) < ratTrunc minItems then
               [⟨fieldName, "min_items",
                 "Field '" ++ fieldName ++ "' must have at least " ++ toString (ratTrunc minItems) ++ " items",
                 some (GoVal.vnum (arr.length : ℚ)), some (GoVal.vnum ((ratTrunc minItems : Int) : ℚ)), fieldPath⟩]
             else []
           | none => []) ++
          (match getNum schemaProp "maxItems" with
           | some maxItems =>
             if (arr.length : Int) > ratTrunc maxItems then
               [⟨fieldName, "max_items",
                 "Field '" ++ fieldName ++ "' must have at most " ++ toString (ratTrunc maxItems) ++ " items",
                 some (GoVal.vnum (arr.length : ℚ)), some (GoVal.vnum ((ratTrunc maxItems : Int) : ℚ)), fieldPath⟩]
             else []
           | none => []) ++
          (match getBool schemaProp "uniqueItems" with
           | some true =>
             (match uniqueScan [] arr with
              | some item =>
                [⟨fieldName, "unique_items", "Field '" ++ fieldName ++ "' must have unique items",
                  some item, none, fieldPath⟩]
              | none => [])
           | _ => [])
          , [])
         (match getObj schemaProp "items" with
          | some items => validateArrayItems p fieldName fieldPath items arr 0
          | none => dnil)
  | _ => dnil
termination_by (sizeOf value, 0)

/-- The per-element loop of `validateArrayField`: validate element `i`
against the `items` schema as field `name[i]` at path `path[i]`. -/
def validateArrayItems (p : GoPrims) (fieldName fieldPath : String)
    (items : List (String × GoVal)) : List GoVal → Nat → Deltas
  | [], _ => dnil
  | x :: rest, i =>
    dcat (validateField p (fieldName ++ "[" ++ toString i ++ "]") x items
            (fieldPath ++ "[" ++ toString i ++ "]"))
         (validateArrayItems p fieldName fieldPath items rest (i + 1))
termination_by xs _ => (sizeOf xs, 2)

/-- `SchemaValidator.validateNestedObject`: recurse into the object's own
`properties`, then the object's own `required` array sweep. -/
def validateNestedObject (p : GoPrims) (fieldName : String) (value : GoVal)
    (schemaProp : List (String × GoVal)) (fieldPath : String) : Deltas :=
  match value with
  | GoVal.vobj objMap =>
    dcat (match getObj schemaProp "properties" with
          | some properties => validateObject p objMap fieldPath properties
          | none => dnil)
         (match getArr schemaProp "required" with
          | some required => (requiredNestedErrs fieldName fieldPath objMap required, [])
          | none => dnil)
  | _ => dnil
termination_by (sizeOf value, 0)

/-- The loop body of `SchemaValidator.validateObject` for one content
field: a declared field whose definition is an object map is validated;
a declared field with a malformed definition contributes nothing; an
undeclared field contributes one `additional_property` warning. -/
def validateObjectField (p : GoPrims) (path : String)
    (schemaProps : List (String × GoVal)) (fieldName : String) (value : GoVal) : Deltas :=
  let fieldPath := if path = "" then fieldName else path ++ "." ++ fieldName
  match alookup schemaProps fieldName with
  | some (GoVal.vobj propMap) => validateField p fieldName value propMap fieldPath
  | some _ => dnil
  | none =>
    ([], [⟨fieldPath, "additional_property",
           "Field '" ++ fieldName ++ "' is not defined in schema but is allowed"⟩])
termination_by (sizeOf value, 2)

/-- `SchemaValidator.validateObject`: the per-field walk over the content
object (association-list order standing in for Go's map iteration). -/
def validateObject (p : GoPrims) (obj : List (String × GoVal)) (path : String)
    (schemaProps : List (String × GoVal)) : Deltas :=
  match obj with
  | [] => dnil
  | (fieldName, value) :: rest =>
    dcat (validateObjectField p path schemaProps fieldName value)
         (validateObject p rest path schemaProps)
termination_by (sizeOf obj, 3)
end

end Validator

namespace Validator

/-- `SchemaValidator.validateRequiredFields`: the final top-level sweep
over the schema's `properties` (the receiver's `sv.schema.Properties` is
passed explicitly): a `required` error for each property whose own
definition carries a boolean `required: true` and whose name is absent
from the content map. -/
def validateRequiredFields (schemaProps : List (String × GoVal))
    (content : List (String × GoVal)) : List VError :=
  match schemaProps with
  | [] => []
  | (propName, propData) :: rest =>
    (match propData with
     | GoVal.vobj propMap =>
       if getBool propMap "required" = some true ∧ (alookup content propName).isNone then
         [⟨propName, "required", "Required field '" ++ propName ++ "' is missing",
           none, none, propName⟩]
       else []
     | _ => []) ++ validateRequiredFields rest content

/-- The runtime panic the validator can actually hit:
`reflect.TypeOf(content).String()` dereferences the nil `reflect.Type`
returned by `reflect.TypeOf` on a nil interface value. -/
inductive GoPanic where
  | nilTypeOf : GoPanic
deriving DecidableEq

/-- `reflect.TypeOf(v).String()` on a decoded JSON value: panics on the
nil interface, otherwise yields the Go type name. -/
def goTypeString : GoVal → Except GoPanic String
  | GoVal.vnull => Except.error GoPanic.nilTypeOf
  | GoVal.vbool _ => Except.ok "bool"
  | GoVal.vnum _ => Except.ok "float64"
  | GoVal.vstr _ => Except.ok "string"
  | GoVal.varr _ => Except.ok "[]interface \x7b\x7d"
  | GoVal.vobj _ => Except.ok "map[string]interface \x7b\x7d"

/-- The validator's `ValidationResult`. -/
structure ValidationResult where
  valid : Bool
  errors : List VError
  warnings : List VWarning
  fieldCount : Nat
  summary : String

/-- `SchemaValidator.ValidateContent`: for an `object` schema, an
object-shaped content is walked field by field and then swept for
top-level required flags; non-object content yields a single `invalid_type`
error at `_root` naming the content's Go type — which panics when the
content is the nil interface.  `Valid` is true exactly when no error was
appended; `FieldCount` is errors + warnings (left 0 on the early return,
as in the source). -/
def ValidateContent (p : GoPrims) (schema : SchemaData) (content : GoVal) :
    Except GoPanic ValidationResult :=
  if schema.type = "object" then
    match content with
    | GoVal.vobj contentMap =>
      let d := dcat (validateObject p contentMap "" schema.properties)
                    (validateRequiredFields schema.properties contentMap, [])
      Except.ok
        { valid := d.1.isEmpty, errors := d.1, warnings := d.2,
          fieldCount := d.1.length + d.2.length,
          summary := if d.1.isEmpty then "All validations passed"
                     else toString d.1.length ++ " validation errors found" }
    | _ =>
      match goTypeString content with
      | Except.error pan => Except.error pan
      | Except.ok tname =>
        Except.ok
          { valid := false,
            errors := [⟨"_root", "invalid_type", "Content must be an object",
                        some (GoVal.vstr tname), some (GoVal.vstr "object"), ""⟩],
            warnings := [], fieldCount := 0, summary := "Content type validation failed" }
  else
    Except.ok
      { valid := true, errors := [], warnings := [], fieldCount := 0,
        summary := "All validations passed" }

end Validator

/-- A value found by `alookup` is structurally smaller than the map. -/
theorem alookup_sizeOf_lt : ∀ {m : List (String × GoVal)} {k : String} {v : GoVal},
    alookup m k = some v → sizeOf v < sizeOf m := by
  intro m
  induction m with
  | nil => intro k v h; simp [alookup] at h
  | cons kv rest ih =>
    intro k v h
    obtain ⟨k', v'⟩ := kv
    simp only [alookup] at h
    by_cases hk : k = k'
    · rw [if_pos hk] at h
      injection h with h
      subst h
      simp only [List.cons.sizeOf_spec, Prod.mk.sizeOf_spec]
      omega
    · rw [if_neg hk] at h
      have := ih h
      simp only [List.cons.sizeOf_spec, Prod.mk.sizeOf_spec]
      omega

/-- An object's field list found by `getObj` is structurally smaller than
the containing map. -/
theorem getObj_sizeOf_lt {m : List (String × GoVal)} {k : String}
    {fields : List (String × GoVal)} (h : getObj m k = some fields) :
    sizeOf fields < sizeOf m := by
  unfold getObj at h
  cases hl : alookup m k with
  | none => rw [hl] at h; cases h
  | some v =>
    rw [hl] at h
    cases v with
    | vobj fs =>
      cases h
      have := alookup_sizeOf_lt hl
      simp only [GoVal.vobj.sizeOf_spec] at this
      omega
    | vnull => cases h
    | vbool b => cases h
    | vnum q => cases h
    | vstr s => cases h
    | varr xs => cases h

namespace Parser

/-- `ParsedProperty` of the Schema Parser: one parsed schema property with
its metadata, an optional `items` child for arrays and named children for
objects (a recursive record, hence an inductive with projections). -/
inductive ParsedProperty where
  | mk : (name : String) → (ptype : String) → (format : String) → (title : String) →
      (description : String) → (required : Bool) → (dflt : Option GoVal) →
      (enum : List GoVal) → (pat : String) → (minLength : Option Int) →
      (maxLength : Option Int) → (minimum : Option ℚ) → (maximum : Option ℚ) →
      (items : Option ParsedProperty) → (properties : List (String × ParsedProperty)) →
      (additionalProperties : Bool) → (examples : List GoVal) →
      (raw : List (String × GoVal)) → ParsedProperty

/-- The `Name` field (dot-joined path). -/
def ParsedProperty.name : ParsedProperty → String
  | ParsedProperty.mk n _ _ _ _ _ _ _ _ _ _ _ _ _ _ _ _ _ => n

/-- The `Type` field. -/
def ParsedProperty.ptype : ParsedProperty → String
  | ParsedProperty.mk _ t _ _ _ _ _ _ _ _ _ _ _ _ _ _ _ _ => t

/-- The `Required` field. -/
def ParsedProperty.required : ParsedProperty → Bool
  | ParsedProperty.mk _ _ _ _ _ r _ _ _ _ _ _ _ _ _ _ _ _ => r

/-- The `Items` field. -/
def ParsedProperty.items : ParsedProperty → Option ParsedProperty
  | ParsedProperty.mk _ _ _ _ _ _ _ _ _ _ _ _ _ i _ _ _ _ => i

/-- The `Properties` field (children of an object property). -/
def ParsedProperty.properties : ParsedProperty → List (String × ParsedProperty)
  | ParsedProperty.mk _ _ _ _ _ _ _ _ _ _ _ _ _ _ ps _ _ _ => ps

/-- `SchemaParser.isRequired`: linear membership scan. -/
def isRequired (fieldName : String) (requiredFields : List String) : Bool :=
  requiredFields.contains fieldName

/-- The string entries of a `required` array. -/
def filterStrings : List GoVal → List String
  | [] => []
  | GoVal.vstr s :: rest => s :: filterStrings rest
  | _ :: rest => filterStrings rest

/-- `SchemaParser.extractRequiredFields`: FIRST consult the schema's
top-level `properties` mapping for a `required` array (the receiver's
`sp.schema.Properties`); only when that is absent or not an array is the
passed mapping's own `required` array used. -/
def extractRequiredFields (schema : SchemaData) (schemaProps : List (String × GoVal)) :
    List String :=
  match alookup schema.properties "required" with
  | some (GoVal.varr requiredArray) => filterStrings requiredArray
  | _ =>
    match alookup schemaProps "required" with
    | some (GoVal.varr requiredArray) => filterStrings requiredArray
    | _ => []

mutual
/-- `SchemaParser.parseProperty`: one property parsed recursively.  The
leaf cases never fail, so the Go error return (only propagated from
recursive calls) is vacuous and the function is total.  Required-ness is
membership of the plain `name` in the `requiredFields` list passed by the
caller; array nodes descend once into `items` (with a nil required list);
object nodes descend into `properties` with the required list extracted
from a singleton map carrying the node's own `required` entry. -/
def parseProperty (schema : SchemaData) (name : String)
    (prop : List (String × GoVal)) (path : String) (requiredFields : List String) :
    ParsedProperty :=
  let fullName := if path ≠ "" then path ++ "." ++ name else name
  let ptype := (getStr prop "type").getD "string"
  let items : Option ParsedProperty :=
    if ptype = "array" then
      match h : getObj prop "items" with
      | some itemsData => some (parseProperty schema "items" itemsData fullName [])
      | none => none
    else none
  let propsChildren : List (String × ParsedProperty) :=
    if ptype = "object" then
      match h : getObj prop "properties" with
      | some properties =>
        parseChildren schema fullName
          (extractRequiredFields schema [("required", (alookup prop "required").getD GoVal.vnull)])
          properties
      | none => []
    else []
  ParsedProperty.mk fullName ptype
    ((getStr prop "format").getD "")
    ((getStr prop "title").getD "")
    ((getStr prop "description").getD "")
    (isRequired name requiredFields)
    (alookup prop "default")
    ((getArr prop "enum").getD [])
    ((getStr prop "pattern").getD "")
    ((getNum prop "minLength").map ratTrunc)
    ((getNum prop "maxLength").map ratTrunc)
    (getNum prop "minimum")
    (getNum prop "maximum")
    items
    propsChildren
    (if ptype = "object" then (getBool prop "additionalProperties").getD true else true)
    ((getArr prop "examples").getD [])
    prop
termination_by (sizeOf prop, 1)
decreasing_by
all_goals simp_wf
all_goals exact Prod.Lex.left _ _ (getObj_sizeOf_lt h)

/-- The nested-properties loop of `parseProperty`: children whose
definitions are object maps are parsed with the parent's dot path and the
parent's own required list; malformed children are skipped. -/
def parseChildren (schema : SchemaData) (parentName : String)
    (nestedRequired : List String) :
    List (String × GoVal) → List (String × ParsedProperty)
  | [] => []
  | (nestedName, GoVal.vobj nestedProp) :: rest =>
    (nestedName, parseProperty schema nestedName nestedProp parentName nestedRequired) ::
      parseChildren schema parentName nestedRequired rest
  | _ :: rest => parseChildren schema parentName nestedRequired rest
termination_by ps => (sizeOf ps, 0)
decreasing_by
all_goals simp_wf
all_goals apply Prod.Lex.left
all_goals simp_arith [List.cons.sizeOf_spec, Prod.mk.sizeOf_spec, GoVal.vobj.sizeOf_spec]
end

/-- `SchemaParser.toFloat64`: numeric conversion of the parser — unlike
the validator's, it does NOT parse strings (JSON-decoded values carry
numbers only as float64, so the integer and json.Number cases of the Go
switch are unreachable here). -/
def toFloat64 : GoVal → Option ℚ
  | GoVal.vnum v => some v
  | _ => none

/-- `SchemaParser.checkType`: nil passes every type; `number` is any value
`toFloat64` converts; `integer` additionally requires a whole number;
unknown types pass. -/
def checkType (value : GoVal) (expectedType : String) : Bool :=
  if isNullGo value then true
  else
    match expectedType with
    | "string" => (match value with | GoVal.vstr _ => true | _ => false)
    | "number" => (toFloat64 value).isSome
    | "integer" => (match toFloat64 value with | some num => num.den = 1 | none => false)
    | "boolean" => (match value with | GoVal.vbool _ => true | _ => false)
    | "array" => (match value with | GoVal.varr _ => true | _ => false)
    | "object" => (match value with | GoVal.vobj _ => true | _ => false)
    | _ => true

end Parser

/-- `fmt.Sprintf("%.0f", q)`: whole-number rendering, rounding half away
from zero (Go's binary-float tie rounding abstracted; no claim depends on
placeholder text). -/
def goFmtF0 (q : ℚ) : String :=
  let sgn := if q < 0 then "-" else ""
  sgn ++ toString ((|q| + 1 / 2).floor)

namespace FormGen

/-- `types.FormField`: one derived UI form field descriptor. -/
structure FormField where
  name : String
  type : String
  label : String
  required : Bool
  placeholder : String
  options : List String
  value : Option GoVal
  format : String
  description : String

/-- First letter uppercased, rest lowercased, as
`strings.ToUpper(word[:1]) + strings.ToLower(word[1:])` does for ASCII
words (byte-level slicing of multi-byte runes is not modelled). -/
def capitalizeWord (word : String) : String :=
  match word.toList with
  | [] => ""
  | c :: cs => String.mk (c.toUpper :: cs.map Char.toLower)

/-- `FormGenerator.formatFieldLabel`: final dot-segment, split on `_`,
each token capitalized, joined with spaces. -/
def formatFieldLabel (fieldName : String) : String :=
  let parts := goSplitChar fieldName '.'
  let lastPart := parts.getLastD ""
  let words := goSplitChar lastPart '_'
  joinSep " " (words.map capitalizeWord)

/-- `FormGenerator.formatNestedLabel`: the formatted label behind a
two-space indent. -/
def formatNestedLabel (fieldName : String) : String :=
  "  " ++ formatFieldLabel fieldName

/-- `FormGenerator.isTextAreaField`: keyword scan over lowercased title
and description, or a `maxLength` over 100. -/
def isTextAreaField (prop : List (String × GoVal)) : Bool :=
  let title := (getStr prop "title").getD ""
  let description := (getStr prop "description").getD ""
  let kws := ["content", "description", "text", "message", "body", "summary"]
  if kws.any (fun kw => goContains (goToLower title) kw || goContains (goToLower description) kw) then
    true
  else
    match getNum prop "maxLength" with
    | some maxLength => maxLength > 100
    | none => false

/-- `FormGenerator.isImageField`: keyword scan over lowercased title and
description. -/
def isImageField (prop : List (String × GoVal)) : Bool :=
  let title := (getStr prop "title").getD ""
  let description := (getStr prop "description").getD ""
  let kws := ["image", "photo", "picture", "avatar", "logo", "banner", "background"]
  kws.any (fun kw => goContains (goToLower title) kw || goContains (goToLower description) kw)

/-- `FormGenerator.isRichTextField`: format `html`/`richtext`, else
keyword scan over lowercased title and description. -/
def isRichTextField (prop : List (String × GoVal)) : Bool :=
  let format := (getStr prop "format").getD ""
  if format = "html" ∨ format = "richtext" then true
  else
    let title := (getStr prop "title").getD ""
    let description := (getStr prop "description").getD ""
    let kws := ["html", "rich", "formatted", "wysiwyg"]
    kws.any (fun kw => goContains (goToLower title) kw || goContains (goToLower description) kw)

/-- `FormGenerator.convertEnumToOptions`: each enum value rendered with
`fmt.Sprintf("%v", ·)`. -/
def convertEnumToOptions (enum : List GoVal) : List String :=
  enum.map displayGo

/-- `FormGenerator.extractBasicProperties`: label from `title` or the
formatted display name; description doubling as placeholder when the
placeholder is empty; `default` as the initial value. -/
def extractBasicProperties (field : FormField) (displayName : String)
    (prop : List (String × GoVal)) : FormField :=
  let f1 :=
    match getStr prop "title" with
    | some title => { field with label := title }
    | none => { field with label := formatFieldLabel displayName }
  let f2 :=
    match getStr prop "description" with
    | some description =>
      let f := { f1 with description := description }
      if f.placeholder = "" then { f with placeholder := description } else f
    | none => f1
  match alookup prop "default" with
  | some defaultValue => { f2 with value := some defaultValue }
  | none => f2

/-- `FormGenerator.handleStringField`: the string-format table; the
`image` format registers the field name in the image-field registry
(returned as the second component); otherwise textarea heuristics or
plain text.  The declared format string is copied to the field. -/
def handleStringField (field : FormField) (format : String)
    (prop : List (String × GoVal)) : FormField × List String :=
  let fr : FormField × List String :=
    match format with
    | "email" => ({ field with type := "email" }, [])
    | "password" => ({ field with type := "password" }, [])
    | "textarea" => ({ field with type := "textarea" }, [])
    | "url" => ({ field with type := "url" }, [])
    | "tel" => ({ field with type := "tel" }, [])
    | "date" => ({ field with type := "date" }, [])
    | "datetime-local" => ({ field with type := "datetime-local" }, [])
    | "time" => ({ field with type := "time" }, [])
    | "color" => ({ field with type := "color" }, [])
    | "image" => ({ field with type := "image" }, [field.name])
    | _ =>
      if isTextAreaField prop then ({ field with type := "textarea" }, [])
      else ({ field with type := "text" }, [])
  ({ fr.1 with format := format }, fr.2)

/-- `FormGenerator.handleArrayField`: generic `array` with `format` set to
the declared item type; a string-typed items schema carrying an `enum`
array upgrades the field to `multiselect` with the rendered enum values as
options. -/
def handleArrayField (field : FormField) (prop : List (String × GoVal)) : FormField :=
  let field := { field with type := "array" }
  match getObj prop "items" with
  | some items =>
    let field :=
      match getStr items "type" with
      | some itemType => { field with format := itemType }
      | none => field
    match getStr items "type" with
    | some itemType =>
      if itemType = "string" then
        match getArr items "enum" with
        | some enum =>
          { field with type := "multiselect", options := convertEnumToOptions enum }
        | none => field
      else field
    | none => field
  | none => field

/-- `FormGenerator.extractTypeAndFormat`: uiType by declared type, with
string formats handled by `handleStringField` and arrays by
`handleArrayField` (integer sets `format := "integer"`). -/
def extractTypeAndFormat (field : FormField) (prop : List (String × GoVal)) :
    FormField × List String :=
  let fieldType := (getStr prop "type").getD ""
  let format := (getStr prop "format").getD ""
  match fieldType with
  | "string" => handleStringField field format prop
  | "number" => ({ field with type := "number" }, [])
  | "integer" => ({ field with type := "number", format := "integer" }, [])
  | "boolean" => ({ field with type := "checkbox" }, [])
  | "array" => (handleArrayField { field with type := "array" } prop, [])
  | "object" => ({ field with type := "object" }, [])
  | _ => ({ field with type := "text" }, [])

/-- `FormGenerator.extractValidationConstraints`: a per-property boolean
`required` flag; a positive `minLength` also marks the field required;
min/max placeholders for number fields. -/
def extractValidationConstraints (field : FormField)
    (prop : List (String × GoVal)) : FormField :=
  let field :=
    match getBool prop "required" with
    | some required => { field with required := required }
    | none => field
  let field :=
    match getNum prop "minLength" with
    | some minLen => { field with required := field.required || decide (minLen > 0) }
    | none => field
  if field.type = "number" then
    let field :=
      match getNum prop "minimum" with
      | some minimum =>
        if field.placeholder = "" then
          { field with placeholder := "Minimum: " ++ goFmtF0 minimum }
        else field
      | none => field
    match getNum prop "maximum" with
    | some maximum =>
      if field.placeholder = "" then
        { field with placeholder := "Maximum: " ++ goFmtF0 maximum }
      else { field with placeholder := field.placeholder ++ ", Maximum: " ++ goFmtF0 maximum }
    | none => field
  else field

/-- `FormGenerator.extractEnumOptions`: a property-level `enum` array
turns the field into a `select` with the rendered values as options. -/
def extractEnumOptions (field : FormField) (prop : List (String × GoVal)) : FormField :=
  match getArr prop "enum" with
  | some enum => { field with type := "select", options := convertEnumToOptions enum }
  | none => field

/-- `FormGenerator.handleSpecialFieldTypes`: image keywords upgrade a
plain text field to `image` (registering it); rich-text hints override
whatever uiType was chosen so far. -/
def handleSpecialFieldTypes (field : FormField) (prop : List (String × GoVal)) :
    FormField × List String :=
  let fr : FormField × List String :=
    if isImageField prop ∧ field.type = "text" then
      ({ field with type := "image" }, [field.name])
    else (field, [])
  if isRichTextField prop then ({ fr.1 with type := "richtext" }, fr.2) else fr

/-- `FormGenerator.createFormField`: the full pipeline for one property —
basic metadata, type/format inference, validation constraints, enum
options, special types — and, LAST, the nested-label override, which
recomputes the label from the display name for every nested field.  The
second component collects image-field registrations. -/
def createFormField (fullName displayName : String)
    (prop : List (String × GoVal)) (isNested : Bool) : FormField × List String :=
  let field : FormField := ⟨fullName, "text", "", false, "", [], none, "", ""⟩
  let field := extractBasicProperties field displayName prop
  let fr1 := extractTypeAndFormat field prop
  let field := extractValidationConstraints fr1.1 prop
  let field := extractEnumOptions field prop
  let fr2 := handleSpecialFieldTypes field prop
  let field := if isNested then { fr2.1 with label := formatNestedLabel displayName } else fr2.1
  (field, fr1.2 ++ fr2.2)

/-- `FormGenerator.getFieldPriority`: 1 for `title`, 2 for `description`,
10 for other top-level names, `100 + 10·depth` for dotted names. -/
def getFieldPriority (field : FormField) : Nat :=
  if field.name = "title" then 1
  else if field.name = "description" then 2
  else if goContains field.name "." = false then 10
  else 100 + ((goSplitChar field.name '.').length - 1) * 10

end FormGen

/-- Concrete primitives for closed evaluations: a regex engine that always
matches and date parsers that always succeed (no claim's concrete input
depends on their verdicts). -/
def trivPrims : GoPrims :=
  ⟨fun _ _ => Except.ok true, fun _ => true, fun _ => true⟩

/-- Modelled from the spec's words, for comparison with the code: "the
required name list found in that node's own definition (the node's own
`required` key)". -/
def specOwnRequired (prop : List (String × GoVal)) : List String :=
  match alookup prop "required" with
  | some (GoVal.varr xs) => Parser.filterStrings xs
  | _ => []

/-- The object property used for C2: its own `required` list names `"b"`,
and it declares one child `"b"`. -/
def objPropC2 : List (String × GoVal) :=
  [("type", GoVal.vstr "object"),
   ("required", GoVal.varr [GoVal.vstr "b"]),
   ("properties", GoVal.vobj [("b", GoVal.vobj [("type", GoVal.vstr "string")])])]

/-- A schema whose top-level properties mapping ALSO holds a `required`
array (naming only `"a"`), next to the object property. -/
def schemaC2 : SchemaData :=
  ⟨"", "object", [("required", GoVal.varr [GoVal.vstr "a"]), ("obj", GoVal.vobj objPropC2)]⟩

/-- A schema like `schemaC2` but WITHOUT a top-level `required` array. -/
def schemaC2w : SchemaData :=
  ⟨"", "object", [("obj", GoVal.vobj objPropC2)]⟩


/-- Claim C10: a field with a null value passes the type check for every
declared type in both the Validator's `validateType` and the Parser's
`checkType`, so a null value never yields an `invalid_type` error from
either routine. -/
theorem C10_null_passes_both_type_checks (t : String) :
    Validator.validateType GoVal.vnull t = true ∧ Parser.checkType GoVal.vnull t = true :=
  ⟨rfl, rfl⟩

/-- Claim C1 (code bug): `ValidateContent` on an `object` schema with null
content does NOT return a `ValidationResult` — it hits the
`reflect.TypeOf(content).String()` nil dereference and panics, instead of
degrading to the `_root` `invalid_type` error as for every other
non-object content. -/
theorem C1_nil_content_panics :
    Validator.ValidateContent trivPrims ⟨"", "object", []⟩ GoVal.vnull =
      Except.error Validator.GoPanic.nilTypeOf := rfl

/-- Claim C8: one step of the validator's per-field walk on a content
field whose name is not among the schema's declared properties appends
exactly one `additional_property` warning and no error, whatever the
field's value. -/
theorem C8_additional_property_never_error (p : GoPrims) (path : String)
    (schemaProps : List (String × GoVal)) (fieldName : String) (value : GoVal)
    (h : alookup schemaProps fieldName = none) :
    Validator.validateObjectField p path schemaProps fieldName value =
      ([], [⟨if path = "" then fieldName else path ++ "." ++ fieldName,
             "additional_property",
             "Field '" ++ fieldName ++ "' is not defined in schema but is allowed"⟩]) := by
  rw [Validator.validateObjectField]
  rw [h]

/-- Witness for C8 at a concrete undeclared field. -/
theorem C8_additional_property_never_error_witness :
    alookup [("title", GoVal.vobj [])] "extra" = none ∧
    Validator.validateObjectField trivPrims "" [("title", GoVal.vobj [])] "extra" (GoVal.vnum 3) =
      ([], [⟨if "" = "" then "extra" else "" ++ "." ++ "extra",
             "additional_property",
             "Field '" ++ "extra" ++ "' is not defined in schema but is allowed"⟩]) :=
  ⟨rfl, C8_additional_property_never_error trivPrims "" [("title", GoVal.vobj [])] "extra"
    (GoVal.vnum 3) rfl⟩

/-- Claim C5: when a field's value fails the type check against its
declared type (defaulting to `string`), `validateField` emits exactly one
error, with code `invalid_type`, and performs no further checks: no other
error and no warning is produced for that field. -/
theorem C5_type_mismatch_single_error (p : GoPrims) (fieldName : String) (value : GoVal)
    (schemaProp : List (String × GoVal)) (fieldPath : String)
    (h : Validator.validateType value ((getStr schemaProp "type").getD "string") = false) :
    Validator.validateField p fieldName value schemaProp fieldPath =
      ([⟨fieldName, "invalid_type",
         "Field '" ++ fieldName ++ "' must be of type " ++ (getStr schemaProp "type").getD "string",
         some value, some (GoVal.vstr ((getStr schemaProp "type").getD "string")), fieldPath⟩],
       []) := by
  rw [Validator.validateField]
  simp only [h, if_pos]

/-- Witness for C5: the string `"abc"` against a declared `number` type. -/
theorem C5_type_mismatch_single_error_witness :
    Validator.validateType (GoVal.vstr "abc")
      ((getStr [("type", GoVal.vstr "number")] "type").getD "string") = false ∧
    Validator.validateField trivPrims "f" (GoVal.vstr "abc")
        [("type", GoVal.vstr "number")] "f" =
      ([⟨"f", "invalid_type",
         "Field '" ++ "f" ++ "' must be of type " ++
           (getStr [("type", GoVal.vstr "number")] "type").getD "string",
         some (GoVal.vstr "abc"),
         some (GoVal.vstr ((getStr [("type", GoVal.vstr "number")] "type").getD "string")),
         "f"⟩], []) :=
  ⟨by decide, C5_type_mismatch_single_error trivPrims "f" (GoVal.vstr "abc")
    [("type", GoVal.vstr "number")] "f" (by decide)⟩

/-- Membership characterization of the top-level required sweep: an error
is produced exactly for schema properties whose own object definition has
`required` bound to boolean `true` and whose name is absent from the
content. -/
theorem validateRequiredFields_mem (schemaProps content : List (String × GoVal)) (e : VError) :
    e ∈ Validator.validateRequiredFields schemaProps content ↔
      ∃ propName propMap, (propName, GoVal.vobj propMap) ∈ schemaProps ∧
        getBool propMap "required" = some true ∧ (alookup content propName).isNone = true ∧
        e = ⟨propName, "required", "Required field '" ++ propName ++ "' is missing",
             none, none, propName⟩ := by
  induction schemaProps with
  | nil => simp [Validator.validateRequiredFields]
  | cons kv rest ih =>
    obtain ⟨propName0, propData⟩ := kv
    cases propData with
    | vobj propMap0 =>
      by_cases hc : getBool propMap0 "required" = some true ∧ (alookup content propName0).isNone = true
      · have hstep : Validator.validateRequiredFields ((propName0, GoVal.vobj propMap0) :: rest) content =
            ⟨propName0, "required", "Required field '" ++ propName0 ++ "' is missing",
             none, none, propName0⟩ :: Validator.validateRequiredFields rest content := by
          simp only [Validator.validateRequiredFields]
          rw [if_pos hc]
          simp
        rw [hstep]
        simp only [List.mem_cons, ih]
        constructor
        · rintro (rfl | ⟨pn, pm, hmem, hreq, hab, rfl⟩)
          · exact ⟨propName0, propMap0, Or.inl rfl, hc.1, hc.2, rfl⟩
          · exact ⟨pn, pm, Or.inr hmem, hreq, hab, rfl⟩
        · rintro ⟨pn, pm, heq | hmem, hreq, hab, rfl⟩
          · simp only [Prod.mk.injEq, GoVal.vobj.injEq] at heq
            obtain ⟨rfl, rfl⟩ := heq
            exact Or.inl rfl
          · exact Or.inr ⟨pn, pm, hmem, hreq, hab, rfl⟩
      · have hstep : Validator.validateRequiredFields ((propName0, GoVal.vobj propMap0) :: rest) content =
            Validator.validateRequiredFields rest content := by
          simp only [Validator.validateRequiredFields]
          rw [if_neg hc]
          simp
        rw [hstep, ih]
        simp only [List.mem_cons]
        constructor
        · rintro ⟨pn, pm, hmem, hreq, hab, rfl⟩
          exact ⟨pn, pm, Or.inr hmem, hreq, hab, rfl⟩
        · rintro ⟨pn, pm, heq | hmem, hreq, hab, rfl⟩
          · simp only [Prod.mk.injEq, GoVal.vobj.injEq] at heq
            obtain ⟨rfl, rfl⟩ := heq
            exact absurd ⟨hreq, hab⟩ hc
          · exact ⟨pn, pm, hmem, hreq, hab, rfl⟩
    | vnull => simp [Validator.validateRequiredFields, ih]
    | vbool b => simp [Validator.validateRequiredFields, ih]
    | vnum q => simp [Validator.validateRequiredFields, ih]
    | vstr s => simp [Validator.validateRequiredFields, ih]
    | varr xs => simp [Validator.validateRequiredFields, ih]

/-- Claim C7: the final top-level sweep reports a `required` error for a
property name absent from the content if and only if that property's own
schema definition is an object carrying boolean `required: true`; a
sibling required-name array (the Parser's convention) is never consulted
and produces no error here. -/
theorem C7_top_required_boolean_flag (schemaProps content : List (String × GoVal)) (p : String)
    (habs : (alookup content p).isNone = true) :
    (∃ e ∈ Validator.validateRequiredFields schemaProps content,
        e.field = p ∧ e.code = "required") ↔
      ∃ pm, (p, GoVal.vobj pm) ∈ schemaProps ∧ getBool pm "required" = some true := by
  constructor
  · rintro ⟨e, hmem, hf, _⟩
    rw [validateRequiredFields_mem] at hmem
    obtain ⟨pn, pm, hm, hr, _, rfl⟩ := hmem
    have : pn = p := hf
    subst this
    exact ⟨pm, hm, hr⟩
  · rintro ⟨pm, hm, hr⟩
    refine ⟨⟨p, "required", "Required field '" ++ p ++ "' is missing", none, none, p⟩,
      (validateRequiredFields_mem schemaProps content _).mpr ⟨p, pm, hm, hr, habs, rfl⟩, rfl, rfl⟩

/-- Witness for C7: a property carrying `required: true` (boolean) and an
empty content; a sibling `required` array is also present and ignored. -/
theorem C7_top_required_boolean_flag_witness :
    (alookup [] "title").isNone = true ∧
    ((∃ e ∈ Validator.validateRequiredFields
          [("required", GoVal.varr [GoVal.vstr "other"]),
           ("title", GoVal.vobj [("required", GoVal.vbool true)])] [],
        e.field = "title" ∧ e.code = "required") ↔
      ∃ pm, ("title", GoVal.vobj pm) ∈
          [("required", GoVal.varr [GoVal.vstr "other"]),
           ("title", GoVal.vobj [("required", GoVal.vbool true)])] ∧
        getBool pm "required" = some true) :=
  ⟨rfl, C7_top_required_boolean_flag _ [] "title" rfl⟩

/-- The uniqueItems scan finds no duplicate exactly when the display
strings of the elements are pairwise distinct and also avoid the
already-seen renderings. -/
theorem uniqueScan_eq_none_iff (xs : List GoVal) : ∀ (seen : List String),
    Validator.uniqueScan seen xs = none ↔
      (xs.map displayGo).Nodup ∧ ∀ x ∈ xs, displayGo x ∉ seen := by
  induction xs with
  | nil => intro seen; simp [Validator.uniqueScan]
  | cons x rest ih =>
    intro seen
    rw [Validator.uniqueScan]
    by_cases hc : List.contains seen (displayGo x)
    · rw [if_pos hc]
      have hmem : displayGo x ∈ seen := by simpa using hc
      constructor
      · intro h; simp at h
      · rintro ⟨-, hall⟩
        exact absurd hmem (hall x (List.mem_cons_self x rest))
    · rw [if_neg hc]
      have hxs : displayGo x ∉ seen := by simpa using hc
      rw [ih]
      simp only [List.map_cons, List.nodup_cons, List.mem_map, List.mem_cons, not_or]
      aesop

/-- Claim C6: with `uniqueItems: true`, duplicate detection compares the
`fmt.Sprintf("%v", ·)` display strings of the elements, not structural
equality: an error is emitted exactly when the rendered strings are not
pairwise distinct, and in particular the structurally distinct pair
`[1, "1"]` is reported as a `unique_items` duplicate because both render
to `"1"`. -/
theorem C6_unique_items_display_semantics (p : GoPrims) (fieldName fieldPath : String)
    (xs : List GoVal) :
    (((Validator.validateArrayField p fieldName (GoVal.varr xs)
        [("uniqueItems", GoVal.vbool true)] fieldPath).1.isEmpty = false) ↔
      ¬ (xs.map displayGo).Nodup) ∧
    (Validator.validateArrayField trivPrims "tags" (GoVal.varr [GoVal.vnum 1, GoVal.vstr "1"])
        [("uniqueItems", GoVal.vbool true)] "tags").1 =
      [⟨"tags", "unique_items", "Field 'tags' must have unique items",
        some (GoVal.vstr "1"), none, "tags"⟩] ∧
    GoVal.vnum 1 ≠ GoVal.vstr "1" := by
  have h1 : displayGo (GoVal.vnum 1) = "1" := by rw [displayGo]; decide
  have h2 : displayGo (GoVal.vstr "1") = "1" := by rw [displayGo]
  have hscan : Validator.uniqueScan [] [GoVal.vnum 1, GoVal.vstr "1"] = some (GoVal.vstr "1") := by
    rw [Validator.uniqueScan]
    rw [if_neg (by simp)]
    rw [Validator.uniqueScan]
    simp [h1, h2]
  refine ⟨?_, ?_, by simp⟩
  · rw [Validator.validateArrayField]
    simp only [getNum, getBool, getObj, alookup, dcat, dnil]
    norm_num
    cases hs : Validator.uniqueScan [] xs with
    | some item =>
      have hnd : ¬ (xs.map displayGo).Nodup := by
        intro h
        have hnone : Validator.uniqueScan [] xs = none :=
          (uniqueScan_eq_none_iff xs []).mpr ⟨h, by simp⟩
        rw [hnone] at hs
        cases hs
      simp [hnd]
    | none =>
      have hnd : (xs.map displayGo).Nodup := ((uniqueScan_eq_none_iff xs []).mp hs).1
      simp [hnd]
  · rw [Validator.validateArrayField]
    simp [getNum, getBool, getObj, alookup, dcat, dnil, hscan]

/-- `handleStringField` never touches the label. -/
theorem handleStringField_label (f : FormGen.FormField) (format : String)
    (prop : List (String × GoVal)) :
    ((FormGen.handleStringField f format prop).1).label = f.label := by
  simp only [FormGen.handleStringField]
  repeat' split
  all_goals rfl

/-- `handleArrayField` never touches the label. -/
theorem handleArrayField_label (f : FormGen.FormField) (prop : List (String × GoVal)) :
    (FormGen.handleArrayField f prop).label = f.label := by
  simp only [FormGen.handleArrayField]
  repeat' split
  all_goals rfl

/-- `extractTypeAndFormat` never touches the label. -/
theorem extractTypeAndFormat_label (f : FormGen.FormField) (prop : List (String × GoVal)) :
    ((FormGen.extractTypeAndFormat f prop).1).label = f.label := by
  simp only [FormGen.extractTypeAndFormat]
  repeat' split
  all_goals first
    | rfl
    | exact handleStringField_label ..
    | exact handleArrayField_label ..

/-- `extractValidationConstraints` only updates `required` and
`placeholder`: type, options and label are preserved. -/
theorem extractValidationConstraints_pres (f : FormGen.FormField)
    (prop : List (String × GoVal)) :
    (FormGen.extractValidationConstraints f prop).type = f.type ∧
    (FormGen.extractValidationConstraints f prop).options = f.options ∧
    (FormGen.extractValidationConstraints f prop).label = f.label := by
  simp only [FormGen.extractValidationConstraints]
  repeat' split
  all_goals exact ⟨rfl, rfl, rfl⟩

/-- `extractEnumOptions` never touches the label. -/
theorem extractEnumOptions_label (f : FormGen.FormField) (prop : List (String × GoVal)) :
    (FormGen.extractEnumOptions f prop).label = f.label := by
  simp only [FormGen.extractEnumOptions]
  repeat' split
  all_goals rfl

/-- `handleSpecialFieldTypes` never touches the label. -/
theorem handleSpecialFieldTypes_label (f : FormGen.FormField)
    (prop : List (String × GoVal)) :
    ((FormGen.handleSpecialFieldTypes f prop).1).label = f.label := by
  simp only [FormGen.handleSpecialFieldTypes]
  repeat' split
  all_goals rfl

/-- The label produced by `extractBasicProperties`: the `title` string
when present, the formatted display name otherwise. -/
theorem extractBasicProperties_label (f : FormGen.FormField) (displayName : String)
    (prop : List (String × GoVal)) :
    (FormGen.extractBasicProperties f displayName prop).label =
      (match getStr prop "title" with
       | some title => title
       | none => FormGen.formatFieldLabel displayName) := by
  simp only [FormGen.extractBasicProperties]
  repeat' split
  all_goals rfl

/-- Claim C3 counterexample: a NESTED field with an explicit `title` does
not get that title as its label — the nested-label override recomputes the
label from the field name, discarding the title.  The title is present
(`"Your Email"`), yet the emitted label is `"  Email"`. -/
theorem C3_counterexample :
    getStr [("title", GoVal.vstr "Your Email")] "title" = some "Your Email" ∧
    (FormGen.createFormField "sec.email" "email"
        [("title", GoVal.vstr "Your Email")] true).1.label = "  Email" :=
  ⟨rfl, rfl⟩

/-- Claim C3 as amended: for a NON-nested field an explicit `title` wins
and otherwise the label is the formatted final dot-segment (split on `_`,
first letter of each token uppercased, rest lowercased, joined by
spaces); for a NESTED field the label is always the two-space indent plus
the formatted display name, ignoring any explicit `title`. -/
theorem C3_label_derivation (fullName displayName : String)
    (prop : List (String × GoVal)) (isNested : Bool) :
    (isNested = true →
      (FormGen.createFormField fullName displayName prop isNested).1.label =
        "  " ++ FormGen.formatFieldLabel displayName) ∧
    (isNested = false →
      (FormGen.createFormField fullName displayName prop isNested).1.label =
        (match getStr prop "title" with
         | some title => title
         | none => FormGen.formatFieldLabel displayName)) := by
  constructor
  · rintro rfl
    rfl
  · rintro rfl
    simp only [FormGen.createFormField, if_neg Bool.false_ne_true]
    rw [handleSpecialFieldTypes_label, extractEnumOptions_label,
      (extractValidationConstraints_pres ..).2.2, extractTypeAndFormat_label,
      extractBasicProperties_label]

/-- Witness for C3: a top-level field with a title keeps the title; the
same data nested loses it. -/
theorem C3_label_derivation_witness :
    ((true : Bool) = true →
      (FormGen.createFormField "sec.email" "email"
          [("title", GoVal.vstr "Your Email")] true).1.label =
        "  " ++ FormGen.formatFieldLabel "email") ∧
    ((true : Bool) = false →
      (FormGen.createFormField "sec.email" "email"
          [("title", GoVal.vstr "Your Email")] true).1.label =
        (match getStr [("title", GoVal.vstr "Your Email")] "title" with
         | some title => title
         | none => FormGen.formatFieldLabel "email")) :=
  C3_label_derivation "sec.email" "email" [("title", GoVal.vstr "Your Email")] true

/-- A string-typed items schema with an `enum` array turns
`handleArrayField` into a multiselect with the rendered enum options
(format already set to the item type). -/
theorem handleArrayField_string_enum (f : FormGen.FormField)
    (prop items : List (String × GoVal)) (enum : List GoVal)
    (hitems : getObj prop "items" = some items)
    (htype : getStr items "type" = some "string")
    (henum : getArr items "enum" = some enum) :
    FormGen.handleArrayField f prop =
      { f with type := "multiselect", format := "string",
               options := FormGen.convertEnumToOptions enum } := by
  simp only [FormGen.handleArrayField, hitems, htype, henum]
  rfl

/-- Claim C4 counterexample: an array property whose `items` carries an
enum list but declares NO `items.type` is NOT emitted as a multiselect —
the deriver requires `items.type == "string"`, so the descriptor keeps the
generic `array` uiType and empty options. -/
theorem C4_counterexample :
    getArr [("enum", GoVal.varr [GoVal.vstr "x", GoVal.vstr "y", GoVal.vstr "z"])] "enum" =
      some [GoVal.vstr "x", GoVal.vstr "y", GoVal.vstr "z"] ∧
    (FormGen.createFormField "tags" "tags"
        [("type", GoVal.vstr "array"),
         ("items", GoVal.vobj
            [("enum", GoVal.varr [GoVal.vstr "x", GoVal.vstr "y", GoVal.vstr "z"])])]
        false).1.type = "array" ∧
    (FormGen.createFormField "tags" "tags"
        [("type", GoVal.vstr "array"),
         ("items", GoVal.vobj
            [("enum", GoVal.varr [GoVal.vstr "x", GoVal.vstr "y", GoVal.vstr "z"])])]
        false).1.options = [] :=
  ⟨rfl, rfl, rfl⟩

/-- With no property-level `enum` array, `extractEnumOptions` is the
identity. -/
theorem extractEnumOptions_none (f : FormGen.FormField) (prop : List (String × GoVal))
    (h : getArr prop "enum" = none) : FormGen.extractEnumOptions f prop = f := by
  simp only [FormGen.extractEnumOptions, h]

/-- With a declared `array` type, `extractTypeAndFormat` delegates to
`handleArrayField` and registers nothing. -/
theorem extractTypeAndFormat_array (f : FormGen.FormField) (prop : List (String × GoVal))
    (h : getStr prop "type" = some "array") :
    FormGen.extractTypeAndFormat f prop =
      (FormGen.handleArrayField { f with type := "array" } prop, []) := by
  simp only [FormGen.extractTypeAndFormat, h, Option.getD_some]

/-- On a field that is not plain text, with no rich-text hint,
`handleSpecialFieldTypes` changes nothing and registers nothing. -/
theorem handleSpecialFieldTypes_skip (f : FormGen.FormField) (prop : List (String × GoVal))
    (hf : f.type ≠ "text") (hrich : FormGen.isRichTextField prop = false) :
    FormGen.handleSpecialFieldTypes f prop = (f, []) := by
  have hcond : ¬ (FormGen.isImageField prop = true ∧ f.type = "text") := fun hh => hf hh.2
  simp only [FormGen.handleSpecialFieldTypes, hrich]
  rw [if_neg hcond]
  simp

/-- Claim C4 as amended: for an array property whose `items.type` is
`"string"` AND whose `items` carries an `enum` array, the derived
descriptor has uiType `multiselect` and options equal to the enum values
rendered as strings — provided no property-level `enum` and no rich-text
hint overrides the choice afterwards. -/
theorem C4_array_enum_multiselect (fullName displayName : String)
    (prop items : List (String × GoVal)) (enum : List GoVal)
    (htype2 : getStr prop "type" = some "array")
    (hitems : getObj prop "items" = some items)
    (htype : getStr items "type" = some "string")
    (henum : getArr items "enum" = some enum)
    (hpropenum : getArr prop "enum" = none)
    (hrich : FormGen.isRichTextField prop = false) :
    (FormGen.createFormField fullName displayName prop false).1.type = "multiselect" ∧
    (FormGen.createFormField fullName displayName prop false).1.options =
      FormGen.convertEnumToOptions enum := by
  have hHtype : (FormGen.extractTypeAndFormat
      (FormGen.extractBasicProperties ⟨fullName, "text", "", false, "", [], none, "", ""⟩
        displayName prop) prop).1.type = "multiselect" := by
    rw [extractTypeAndFormat_array _ _ htype2,
      handleArrayField_string_enum _ prop items enum hitems htype henum]
  have hHopts : (FormGen.extractTypeAndFormat
      (FormGen.extractBasicProperties ⟨fullName, "text", "", false, "", [], none, "", ""⟩
        displayName prop) prop).1.options = FormGen.convertEnumToOptions enum := by
    rw [extractTypeAndFormat_array _ _ htype2,
      handleArrayField_string_enum _ prop items enum hitems htype henum]
  have hGtype : (FormGen.extractValidationConstraints (FormGen.extractTypeAndFormat
      (FormGen.extractBasicProperties ⟨fullName, "text", "", false, "", [], none, "", ""⟩
        displayName prop) prop).1 prop).type = "multiselect" := by
    rw [(extractValidationConstraints_pres ..).1, hHtype]
  have hGopts : (FormGen.extractValidationConstraints (FormGen.extractTypeAndFormat
      (FormGen.extractBasicProperties ⟨fullName, "text", "", false, "", [], none, "", ""⟩
        displayName prop) prop).1 prop).options = FormGen.convertEnumToOptions enum := by
    rw [(extractValidationConstraints_pres ..).2.1, hHopts]
  have hfull : (FormGen.createFormField fullName displayName prop false).1 =
      (FormGen.handleSpecialFieldTypes
        (FormGen.extractEnumOptions (FormGen.extractValidationConstraints
          (FormGen.extractTypeAndFormat
            (FormGen.extractBasicProperties ⟨fullName, "text", "", false, "", [], none, "", ""⟩
              displayName prop) prop).1 prop) prop) prop).1 := rfl
  rw [hfull, extractEnumOptions_none _ _ hpropenum,
    handleSpecialFieldTypes_skip _ _ (by rw [hGtype]; simp) hrich]
  exact ⟨hGtype, hGopts⟩

/-- Witness for C4 at a concrete string-items enum array. -/
theorem C4_array_enum_multiselect_witness :
    getStr [("type", GoVal.vstr "array"),
            ("items", GoVal.vobj [("type", GoVal.vstr "string"),
              ("enum", GoVal.varr [GoVal.vstr "x", GoVal.vstr "y", GoVal.vstr "z"])])] "type" =
      some "array" ∧
    FormGen.isRichTextField [("type", GoVal.vstr "array"),
        ("items", GoVal.vobj [("type", GoVal.vstr "string"),
          ("enum", GoVal.varr [GoVal.vstr "x", GoVal.vstr "y", GoVal.vstr "z"])])] = false ∧
    (FormGen.createFormField "tags" "tags"
        [("type", GoVal.vstr "array"),
         ("items", GoVal.vobj [("type", GoVal.vstr "string"),
           ("enum", GoVal.varr [GoVal.vstr "x", GoVal.vstr "y", GoVal.vstr "z"])])]
        false).1.type = "multiselect" ∧
    (FormGen.createFormField "tags" "tags"
        [("type", GoVal.vstr "array"),
         ("items", GoVal.vobj [("type", GoVal.vstr "string"),
           ("enum", GoVal.varr [GoVal.vstr "x", GoVal.vstr "y", GoVal.vstr "z"])])]
        false).1.options =
      FormGen.convertEnumToOptions [GoVal.vstr "x", GoVal.vstr "y", GoVal.vstr "z"] := by
  have h := C4_array_enum_multiselect "tags" "tags"
    [("type", GoVal.vstr "array"),
     ("items", GoVal.vobj [("type", GoVal.vstr "string"),
       ("enum", GoVal.varr [GoVal.vstr "x", GoVal.vstr "y", GoVal.vstr "z"])])]
    [("type", GoVal.vstr "string"),
     ("enum", GoVal.varr [GoVal.vstr "x", GoVal.vstr "y", GoVal.vstr "z"])]
    [GoVal.vstr "x", GoVal.vstr "y", GoVal.vstr "z"]
    rfl rfl rfl rfl rfl (by decide)
  exact ⟨rfl, by decide, h.1, h.2⟩

/-- Claim C9 counterexample: the string `"5.5"` parses as a decimal
number, yet against a declared `integer` type it FAILS the type check and
yields an `invalid_type` error (the integrality check rejects it), so the
claim as stated (every decimal-parsing string passes for `number` or
`integer`) is false. -/
theorem C9_counterexample :
    goParseFloat "5.5" = some ((11 : ℚ) / 2) ∧
    ((Validator.validateField trivPrims "age" (GoVal.vstr "5.5")
        [("type", GoVal.vstr "integer")] "age").1.map VError.code) = ["invalid_type"] := by
  have hq : goParseFloat "5.5" = some ((11 : ℚ) / 2) := by
    simp [goParseFloat, splitFirst, digitsVal]
    norm_num
  have hden : ((11 : ℚ) / 2).den = 2 := by norm_num [Rat.den_div_eq_of_coprime]
  have hft : Validator.validateType (GoVal.vstr "5.5") "integer" = false := by
    simp [Validator.validateType, isNullGo, Validator.isNumber, Validator.isInteger,
      Validator.toFloat64, hq, hden]
  refine ⟨hq, ?_⟩
  rw [Validator.validateField]
  simp [getStr, alookup, hft]

/-- Claim C9 as amended: a string parsing as a decimal number passes the
type check for `number` (and for `integer` when its value is whole), and
the numeric constraint checks treat it exactly as its parsed value:
`validateNumberField` on the string equals `validateNumberField` on the
parsed number, and a bare `number`-typed field accepts the string with no
error or warning at all. -/
theorem C9_numeric_string_coercion (p : GoPrims) (fieldName fieldPath s : String) (q : ℚ)
    (prop : List (String × GoVal)) (hq : goParseFloat s = some q) :
    Validator.validateType (GoVal.vstr s) "number" = true ∧
    ((q.den = 1) → Validator.validateType (GoVal.vstr s) "integer" = true) ∧
    Validator.validateNumberField fieldName (GoVal.vstr s) prop fieldPath =
      Validator.validateNumberField fieldName (GoVal.vnum q) prop fieldPath ∧
    Validator.validateField p fieldName (GoVal.vstr s)
        [("type", GoVal.vstr "number")] fieldPath = ([], []) := by
  have h1 : Validator.validateType (GoVal.vstr s) "number" = true := by
    simp [Validator.validateType, isNullGo, Validator.isNumber, hq]
  refine ⟨h1, ?_, ?_, ?_⟩
  · intro hden
    simp [Validator.validateType, isNullGo, Validator.isInteger, Validator.isNumber,
      Validator.toFloat64, hq, hden]
  · simp only [Validator.validateNumberField, Validator.toFloat64, hq]
  · rw [Validator.validateField]
    simp [getStr, alookup, h1, Validator.validateNumberField, Validator.toFloat64, hq,
      getNum, getArr, dcat, dnil, isNullGo]

/-- Witness for C9: the string `"5"` is accepted as the number 5 and
checked against numeric constraints as 5. -/
theorem C9_numeric_string_coercion_witness :
    goParseFloat "5" = some (5 : ℚ) ∧
    (Validator.validateType (GoVal.vstr "5") "number" = true ∧
     (((5 : ℚ).den = 1) → Validator.validateType (GoVal.vstr "5") "integer" = true) ∧
     Validator.validateNumberField "age" (GoVal.vstr "5")
         [("minimum", GoVal.vnum 10)] "age" =
       Validator.validateNumberField "age" (GoVal.vnum 5)
         [("minimum", GoVal.vnum 10)] "age" ∧
     Validator.validateField trivPrims "age" (GoVal.vstr "5")
         [("type", GoVal.vstr "number")] "age" = ([], [])) := by
  have hq : goParseFloat "5" = some (5 : ℚ) := by
    simp [goParseFloat, splitFirst, digitsVal]
  exact ⟨hq, C9_numeric_string_coercion trivPrims "age" "age" "5" 5
    [("minimum", GoVal.vnum 10)] hq⟩

/-- The parsed required flag is exactly membership of the plain name in
the required list the caller passes. -/
theorem parseProperty_required (schema : SchemaData) (name : String)
    (prop : List (String × GoVal)) (path : String) (req : List String) :
    (Parser.parseProperty schema name prop path req).required =
      Parser.isRequired name req := by
  rw [Parser.parseProperty]
  simp only [Parser.ParsedProperty.required]

/-- Every child produced by the nested-properties loop carries the
required flag computed from the single `nestedRequired` list the loop was
given. -/
theorem parseChildren_mem_required (schema : SchemaData) (parentName : String)
    (nestedRequired : List String) :
    ∀ (ps : List (String × GoVal)) (c : String) (child : Parser.ParsedProperty),
      (c, child) ∈ Parser.parseChildren schema parentName nestedRequired ps →
      child.required = Parser.isRequired c nestedRequired := by
  intro ps
  induction ps with
  | nil =>
    intro c child hmem
    rw [Parser.parseChildren] at hmem
    simp at hmem
  | cons kv rest ih =>
    intro c child hmem
    obtain ⟨n, v⟩ := kv
    cases v with
    | vobj vm =>
      rw [Parser.parseChildren] at hmem
      rcases List.mem_cons.mp hmem with heq | hmem'
      · obtain ⟨rfl, rfl⟩ := Prod.mk.injEq .. |>.mp heq
        exact parseProperty_required ..
      · exact ih c child hmem'
    | vnull =>
      simp only [Parser.parseChildren] at hmem
      exact ih c child hmem
    | vbool b =>
      simp only [Parser.parseChildren] at hmem
      exact ih c child hmem
    | vnum q =>
      simp only [Parser.parseChildren] at hmem
      exact ih c child hmem
    | vstr s =>
      simp only [Parser.parseChildren] at hmem
      exact ih c child hmem
    | varr xs =>
      simp only [Parser.parseChildren] at hmem
      exact ih c child hmem

/-- When the top-level properties mapping holds no `required` array,
`extractRequiredFields` reduces to the passed mapping's own lookup. -/
theorem extractRequiredFields_of_no_top (schema : SchemaData)
    (htop : ∀ xs, alookup schema.properties "required" ≠ some (GoVal.varr xs))
    (m : List (String × GoVal)) :
    Parser.extractRequiredFields schema m =
      (match alookup m "required" with
       | some (GoVal.varr xs) => Parser.filterStrings xs
       | _ => []) := by
  unfold Parser.extractRequiredFields
  split
  · rename_i xs hxs
    exact absurd hxs (htop xs)
  · rfl

/-- Claim C2 as amended: PROVIDED the top-level properties mapping holds
no `required` array, required-ness of an object node's children is
membership in the node's own `required` list; when a top-level `required`
array is present it shadows every nested lookup (see the counterexample). -/
theorem C2_nested_required_own_list (schema : SchemaData)
    (htop : ∀ xs, alookup schema.properties "required" ≠ some (GoVal.varr xs))
    (name : String) (prop : List (String × GoVal)) (path : String) (req : List String)
    (c : String) (child : Parser.ParsedProperty)
    (hmem : (c, child) ∈ (Parser.parseProperty schema name prop path req).properties) :
    child.required = ((specOwnRequired prop).contains c) := by
  rw [Parser.parseProperty] at hmem
  simp only [Parser.ParsedProperty.properties] at hmem
  split at hmem
  · split at hmem
    · rename_i properties hprops
      have hreq := parseChildren_mem_required schema _ _ _ c child hmem
      rw [hreq, extractRequiredFields_of_no_top schema htop]
      have halo : alookup [("required", (alookup prop "required").getD GoVal.vnull)]
          "required" = some ((alookup prop "required").getD GoVal.vnull) := by
        simp [alookup]
      rw [halo]
      unfold specOwnRequired Parser.isRequired
      cases hpr : alookup prop "required" with
      | none => rfl
      | some v => cases v <;> rfl
    · simp at hmem
  · simp at hmem

/-- Claim C2 counterexample: with a top-level `required` array present,
the nested child `"b"` is parsed as NOT required even though the node's
own `required` list names it — `extractRequiredFields` always prefers the
top-level array, shadowing the node's own list at every nesting level. -/
theorem C2_counterexample :
    Parser.filterStrings [GoVal.vstr "b"] = ["b"] ∧
    alookup objPropC2 "required" = some (GoVal.varr [GoVal.vstr "b"]) ∧
    ((Parser.parseProperty schemaC2 "obj" objPropC2 ""
        (Parser.extractRequiredFields schemaC2 schemaC2.properties)).properties.map
      (fun c => (c.1, c.2.required))) = [("b", false)] := by
  refine ⟨rfl, rfl, ?_⟩
  rw [Parser.parseProperty]
  simp [Parser.parseChildren, Parser.parseProperty, Parser.extractRequiredFields,
    getStr, getObj, getNum, getArr, getBool, alookup, Parser.filterStrings,
    Parser.isRequired, Parser.ParsedProperty.properties, Parser.ParsedProperty.required,
    objPropC2, schemaC2]

/-- Witness for C2 as amended: with no top-level `required` array, the
child `"b"` is parsed with its required flag determined by the node's own
list (here: required). -/
theorem C2_nested_required_own_list_witness :
    (∀ xs, alookup schemaC2w.properties "required" ≠ some (GoVal.varr xs)) ∧
    (("b", Parser.parseProperty schemaC2w "b" [("type", GoVal.vstr "string")] "obj" ["b"]) ∈
      (Parser.parseProperty schemaC2w "obj" objPropC2 "" []).properties) ∧
    (Parser.parseProperty schemaC2w "b" [("type", GoVal.vstr "string")] "obj" ["b"]).required =
      ((specOwnRequired objPropC2).contains "b") := by
  have h1 : ∀ xs, alookup schemaC2w.properties "required" ≠ some (GoVal.varr xs) := by
    intro xs
    simp [schemaC2w, alookup]
  have h2 : ("b", Parser.parseProperty schemaC2w "b" [("type", GoVal.vstr "string")] "obj" ["b"]) ∈
      (Parser.parseProperty schemaC2w "obj" objPropC2 "" []).properties := by
    rw [Parser.parseProperty]
    simp [Parser.ParsedProperty.properties, objPropC2, getStr, getObj, alookup,
      Parser.extractRequiredFields, schemaC2w, Parser.filterStrings, Parser.parseChildren]
  exact ⟨h1, h2, C2_nested_required_own_list schemaC2w h1 "obj" objPropC2 "" [] "b" _ h2⟩
